import Mathlib

/-!
Shallow embedding of the listening-port discovery engine of
`src/vs/workbench/api/node/extHostTunnelService.ts`:
`$findCandidatePorts`, `getSockets`, `loadListeningPorts` and
`loadConnectionTable`, together with theorems settling the frozen claims.

JavaScript conventions modelled explicitly:
- a JS number produced by `parseInt` is `Option Int` (`none` = `NaN`);
- a thrown exception is `none` at `Option`-returning functions;
- a JS object used as a dictionary is an association list with unique keys,
  assignment overwriting in place (`mapSet`), lookup by key (`mapGet`);
- `new Map(pairs)` inserts pairs left to right with the same overwrite-in-place
  semantics, and `.values()` lists the values in key-insertion order;
- string splitting/trimming uses ASCII whitespace (the kernel tables and the
  shell listing consumed by this code contain only spaces, tabs and newlines).
-/

namespace ExtHostTunnel

/-- JS number as produced by `parseInt`: `none` models `NaN`. -/
abbrev JSNum := Option Int

/-- ASCII whitespace as matched by JS `\s` / `String.prototype.trim`. -/
def isWsJS (c : Char) : Bool :=
  c == ' ' || c == '\t' || c == '\n' || c == '\r' || c == '\x0b' || c == '\x0c'

/-- JS `String.prototype.trim`. -/
def jsTrim (l : List Char) : List Char :=
  ((l.dropWhile isWsJS).reverse.dropWhile isWsJS).reverse

/-- Helper for `splitChar`. -/
def splitCharAux (sep : Char) : List Char → List Char → List (List Char)
  | [], acc => [acc.reverse]
  | c :: r, acc =>
    if c == sep then acc.reverse :: splitCharAux sep r []
    else splitCharAux sep r (c :: acc)

/-- JS `str.split(sep)` for a one-character separator: keeps empty segments,
and `"".split(sep) = [""]`. -/
def splitChar (sep : Char) (l : List Char) : List (List Char) :=
  splitCharAux sep l []

/-- Helper for `splitWs`; the Bool records whether we are inside a run of
whitespace (a single separator match of `/\s+/`). -/
def splitWsAux : Bool → List Char → List Char → List (List Char)
  | _, [], acc => [acc.reverse]
  | inRun, c :: r, acc =>
    if isWsJS c then
      if inRun then splitWsAux true r acc
      else acc.reverse :: splitWsAux true r []
    else splitWsAux false r (c :: acc)

/-- JS `str.split(/\s+/)`: pieces between maximal whitespace runs;
`"".split(/\s+/) = [""]`; leading/trailing runs contribute empty pieces. -/
def splitWs (l : List Char) : List (List Char) :=
  splitWsAux false l []

/-- Value of a digit character under the given radix (JS `parseInt` digits:
`0-9`, then letters case-insensitively). -/
def digitVal (radix : Nat) (c : Char) : Option Nat :=
  let v : Nat :=
    if '0' ≤ c ∧ c ≤ '9' then c.toNat - '0'.toNat
    else if 'a' ≤ c ∧ c ≤ 'z' then c.toNat - 'a'.toNat + 10
    else if 'A' ≤ c ∧ c ≤ 'Z' then c.toNat - 'A'.toNat + 10
    else 99
  if v < radix then some v else none

/-- JS `parseInt(s, radix)` (radix 10 or 16 as used by the source): skip
leading whitespace, optional sign, optional `0x`/`0X` when radix is 16, then
the maximal run of radix digits; no digits means `NaN` (`none`). -/
def jsParseInt (s : List Char) (radix : Nat) : JSNum :=
  let t := s.dropWhile isWsJS
  let signed : Bool × List Char :=
    match t with
    | '-' :: r => (true, r)
    | '+' :: r => (false, r)
    | _ => (false, t)
  let t2 : List Char :=
    if radix == 16 then
      match signed.2 with
      | '0' :: 'x' :: r => r
      | '0' :: 'X' :: r => r
      | _ => signed.2
    else signed.2
  let ds := t2.takeWhile (fun c => (digitVal radix c).isSome)
  if ds.isEmpty then none
  else
    some ((if signed.1 then (-1 : Int) else 1) *
      Int.ofNat (ds.foldl (fun a c => a * radix + ((digitVal radix c).getD 0)) 0))

/-- JS dictionary assignment `m[k] = v`: overwrite in place when the key is
present, otherwise append; keys stay unique and keep insertion order.
`new Map(...).set` behaves identically. -/
def mapSet {K V : Type} [DecidableEq K] (m : List (K × V)) (k : K) (v : V) :
    List (K × V) :=
  if m.any (fun p => decide (p.1 = k)) then
    m.map (fun p => if p.1 = k then (k, v) else p)
  else m ++ [(k, v)]

/-- JS dictionary lookup `m[k]` (`none` models `undefined`). -/
def mapGet {K V : Type} [DecidableEq K] (m : List (K × V)) (k : K) : Option V :=
  (m.find? (fun p => decide (p.1 = k))).map (·.2)

/-- A parsed connection-table row: JS object mapping column name to raw
value, as built by `loadConnectionTable`. -/
abbrev ConnRec := List (List Char × List Char)

/-- JS property read `row[name]`. -/
def jsGet (m : ConnRec) (k : List Char) : Option (List Char) := mapGet m k

/-- `names[i] || i`: the column name when defined and truthy (non-empty),
otherwise the numeric index coerced to a string property key. -/
def keyOf (names : List (List Char)) (i : Nat) : List Char :=
  match names.get? i with
  | some n => if n.isEmpty then (toString i).toList else n
  | none => (toString i).toList

/-- `loadConnectionTable` (extHostTunnelService.ts lines 139-148): split the
blob into lines, shift the header, drop the `rx_queue` and `tm->when` column
names, and turn every remaining line into a name-to-value object by position.
The empty-lines case of the match is unreachable: `splitChar` always returns
a non-empty list, matching `lines.shift()!` never failing in the source. -/
def loadConnectionTable (stdout : String) : List ConnRec :=
  let lines := splitChar '\n' (jsTrim stdout.toList)
  match lines with
  | [] => []
  | header :: rest =>
    let names := (splitWs (jsTrim header)).filter
      (fun n => !(decide (n = "rx_queue".toList) || decide (n = "tm->when".toList)))
    rest.map (fun line =>
      (splitWs (jsTrim line)).enum.foldl
        (fun obj iv => mapSet obj (keyOf names iv.1) iv.2) ([] : ConnRec))

/-- A listening connection as produced by `loadListeningPorts`:
`{ socket: parseInt(row.inode, 10), ip: address[0], port: parseInt(address[1], 16) }`. -/
structure Conn where
  socket : JSNum
  ip : List Char
  port : JSNum
deriving DecidableEq, Repr

/-- The row-to-connection map of `loadListeningPorts`. `row.local_address`
being `undefined` makes `.split(':')` throw (hence `none`); a missing `inode`
column reaches `parseInt(undefined, 10) = NaN`, modelled by `none`. -/
def connOfRow (row : ConnRec) : Option Conn :=
  match jsGet row ("local_address".toList) with
  | none => none
  | some la =>
    let address := splitChar ':' la
    some
      { socket :=
          match jsGet row ("inode".toList) with
          | none => none
          | some s => jsParseInt s 10
        ip := address.headD []
        port :=
          match address.get? 1 with
          | none => none
          | some p => jsParseInt p 16 }

/-- `loadListeningPorts` (lines 122-137): concatenate the parsed tables,
keep rows whose `st` is exactly `"0A"`, convert each to a connection, and
deduplicate through `new Map` keyed by port (later insertions overwrite the
value in place, so the last record wins per port). A throwing row conversion
rejects the whole call (`none`). -/
def loadListeningPorts (stdouts : List String) : Option (List Conn) :=
  let table := (stdouts.map loadConnectionTable).flatten
  ((table.filter (fun row => decide (jsGet row ("st".toList) = some ("0A".toList)))).mapM
      connOfRow).map
    (fun recs =>
      (recs.foldl (fun m c => mapSet m c.port c) ([] : List (JSNum × Conn))).map (·.2))

/-- One `{ pid, socket }` record of `getSockets`. -/
structure SockEntry where
  pid : Int
  socket : Int
deriving DecidableEq, Repr

/-- Numeric value of a non-empty digit string (exact; `parseInt` base 10). -/
def digitsToNat (ds : List Char) : Nat :=
  ds.foldl (fun a c => a * 10 + (c.toNat - '0'.toNat)) 0

/-- Literal-text matching step: consume `pat` from the front of `l`. -/
def chompLit (pat : List Char) (l : List Char) : Option (List Char) :=
  if pat.isPrefixOf l then some (l.drop pat.length) else none

/-- Attempt of the regex `\/proc\/(\d+)\/fd\/\d+ -> socket:\[(\d+)\]` at the
start of `l`, returning the two captured digit groups. Greedy `\d+` followed
by a non-digit literal is exactly a maximal digit run. -/
def sockMatchAt (l : List Char) : Option (Nat × Nat) := do
  let r1 ← chompLit ("/proc/".toList) l
  let pidDs := r1.takeWhile Char.isDigit
  if pidDs.isEmpty then none
  else do
    let r3 ← chompLit ("/fd/".toList) (r1.dropWhile Char.isDigit)
    let fdDs := r3.takeWhile Char.isDigit
    if fdDs.isEmpty then none
    else do
      let r5 ← chompLit (" -> socket:[".toList) (r3.dropWhile Char.isDigit)
      let inodeDs := r5.takeWhile Char.isDigit
      if inodeDs.isEmpty then none
      else do
        let _ ← chompLit ("]".toList) (r5.dropWhile Char.isDigit)
        some (digitsToNat pidDs, digitsToNat inodeDs)

/-- Unanchored `RegExp.prototype.exec`: first position (left to right) where
the socket-line pattern matches. -/
def matchSockLine (l : List Char) : Option (Nat × Nat) :=
  l.tails.findSome? sockMatchAt

/-- `getSockets` (lines 111-120): split the trimmed stdout into lines and map
each through the regex with a non-null assertion — `exec(line)!` followed by
`match[1]` throws a TypeError on any line the regex does not match, so one
bad line rejects the whole call (`none`). -/
def getSockets (stdout : String) : Option (List SockEntry) :=
  (splitChar '\n' (jsTrim stdout.toList)).mapM (fun line =>
    (matchSockLine line).map (fun ps => ⟨Int.ofNat ps.1, Int.ofNat ps.2⟩))

/-- One `{ pid, cwd, cmd }` record of the `/proc` inventory scan; the scan
itself is filesystem interaction, so the facade takes the inventory as
input. `pid` is an integer (the scan skips entries failing `!isNaN(pid)`). -/
structure ProcessInfo where
  pid : Int
  cwd : String
  cmd : String
deriving DecidableEq, Repr

/-- A `{ port, detail }` result entry of `$findCandidatePorts`. -/
structure Candidate where
  port : JSNum
  detail : String
deriving DecidableEq, Repr

/-- `[a-zA-Z]` of the self-exclusion regex. -/
def isAlphaAZ (c : Char) : Bool :=
  (decide ('a' ≤ c) && decide (c ≤ 'z')) || (decide ('A' ≤ c) && decide (c ≤ 'Z'))

/-- JS regex `.` without the `s` flag: any character except a line
terminator. -/
def jsDotMatches (c : Char) : Bool :=
  !(c == '\n' || c == '\r' || c == '\u2028' || c == '\u2029')

/-- Match of the core of the first self-exclusion regex at the start of `l`.
The TS string literal `'.*\.vscode\-server\-[a-zA-Z]+\/bin.*'` has its
unrecognised escapes collapse, so the compiled regex is
`.*.vscode-server-[a-zA-Z]+/bin.*` with a plain (any-character) dot before
`vscode`; the `.*` at both ends never affects whether an unanchored search
succeeds. Greedy `[a-zA-Z]+` before `/bin` is a maximal alpha run. -/
def serverBinAt (l : List Char) : Bool :=
  match l with
  | [] => false
  | c :: rest =>
    jsDotMatches c && ("vscode-server-".toList.isPrefixOf rest) &&
      (let t := rest.drop 14
       !(t.takeWhile isAlphaAZ).isEmpty &&
         ("/bin".toList.isPrefixOf (t.dropWhile isAlphaAZ)))

/-- `command.match('.*\.vscode\-server\-[a-zA-Z]+\/bin.*')` as a Boolean:
unanchored search over all positions. -/
def serverBinMatch (l : List Char) : Bool := l.tails.any serverBinAt

/-- `str.indexOf(pat) !== -1`: substring containment. -/
def containsSub (pat l : List Char) : Bool := l.tails.any (fun t => pat.isPrefixOf t)

/-- The self-exclusion test of `$findCandidatePorts` line 103: the candidate
is dropped when the command line matches the vscode-server regex or contains
`out/vs/server/main.js`. -/
def excludedCmd (cmd : String) : Bool :=
  serverBinMatch cmd.toList || containsSub ("out/vs/server/main.js".toList) cmd.toList

/-- Lookup of a JS-number key in an integer-keyed object: a `NaN` key is
never present. -/
def lookupNum {V : Type} (m : List (Int × V)) (k : JSNum) : Option V :=
  k.bind (fun n => mapGet m n)

/-- The `forEach` of lines 101-106 over the filtered connections:
`processMap[socketMap[socket].pid].cmd` with no guard — a pid absent from the
process inventory makes `.cmd` throw (`none`); otherwise the candidate is
pushed unless the command matches the self-exclusion patterns. The
`lookupNum` branch `none` is unreachable after the filter but mirrors the
`.pid` access on `socketMap[socket]`. -/
def correlate (socketMap : List (Int × SockEntry)) (processMap : List (Int × ProcessInfo)) :
    List Conn → Option (List Candidate)
  | [] => some []
  | c :: rest =>
    (lookupNum socketMap c.socket).bind (fun s =>
      (mapGet processMap s.pid).bind (fun p =>
        if excludedCmd p.cmd then correlate socketMap processMap rest
        else (correlate socketMap processMap rest).map
          (fun l => ⟨c.port, p.cmd⟩ :: l)))

/-- `$findCandidatePorts` (lines 58-109) over its input state: the platform
flag, the two connection-table texts, the socket-enumeration stdout and the
process inventory. `none` models the promise rejecting with a thrown
exception; `some ports` models a successful return. -/
def findCandidatePorts (isLinuxFlag : Bool) (tcp tcp6 procSockets : String)
    (processes : List ProcessInfo) : Option (List Candidate) :=
  if isLinuxFlag then
    (loadListeningPorts [tcp, tcp6]).bind (fun connections =>
      (getSockets procSockets).bind (fun sockets =>
        let socketMap := sockets.foldl (fun m s => mapSet m s.socket s)
          ([] : List (Int × SockEntry))
        let processMap := processes.foldl (fun m p => mapSet m p.pid p)
          ([] : List (Int × ProcessInfo))
        correlate socketMap processMap
          (connections.filter (fun c => (lookupNum socketMap c.socket).isSome))))
  else some []

/-! Concrete inputs used by the end-to-end claims. -/

/-- IPv4 connection table of end-to-end scenario A: one row, state `0A`,
local address `0100007F:1F90`, inode `12345`, under the real
`/proc/net/tcp` header (whose `rx_queue` and `tm->when` names must be
dropped for the values to align). -/
def scenarioA_tcp : String :=
  "  sl  local_address rem_address   st tx_queue rx_queue tr tm->when retrnsmt   uid  timeout inode\n   0: 0100007F:1F90 00000000:0000 0A 00000000:00000000 00:00000000 00000000  1000        0 12345"

/-- Socket enumeration of scenario A: inode `12345` owned by pid `42`. -/
def scenarioA_sock : String :=
  "lrwx------ 1 me me 64 Jan  1 00:00 /proc/42/fd/3 -> socket:[12345]"

/-- Process inventory of scenario A. -/
def scenarioA_procs : List ProcessInfo :=
  [⟨42, "/home/me", "/usr/bin/myserver --port 8080"⟩]

/-- Scenario B process inventory: same pid but the command line is the
remote-host agent's own server entry path. -/
def scenarioB_procs : List ProcessInfo :=
  [⟨42, "/home/me", "/usr/bin/node /home/me/.vscode-server-insiders/bin/abc/out/vs/server/main.js"⟩]

/-- Scenario D connection table: two listening rows (inodes 111 and 222,
different future owners) that both decode to port 8080. -/
def scenarioD_tcp : String :=
  "sl local_address st inode\n0: 0100007F:1F90 0A 111\n1: 00000000:1F90 0A 222"

/-- Scenario D socket enumeration: both inodes attributable, to pids 6 and 7. -/
def scenarioD_sock : String :=
  "/proc/6/fd/9 -> socket:[111]\n/proc/7/fd/9 -> socket:[222]"

/-- Scenario D process inventory. -/
def scenarioD_procs : List ProcessInfo :=
  [⟨6, "/", "/usr/bin/webA"⟩, ⟨7, "/", "/usr/bin/webB"⟩]

/-- Connection table for the C2 failing input: one listening row with
inode 77. -/
def c2_tcp : String := "sl local_address st inode\n0: 0100007F:0050 0A 77"

/-- IPv4 table for the shadowing scenario of C10: inode 111, port 8080. -/
def c10_tcp4 : String := "sl local_address st inode\n0: 0100007F:1F90 0A 111"

/-- IPv6 table for the shadowing scenario of C10: inode 222, same port 8080
(concatenated after the IPv4 rows by `loadListeningPorts(tcp, tcp6)`). -/
def c10_tcp6 : String :=
  "sl local_address st inode\n0: 00000000000000000000000001000000:1F90 0A 222"

/-- Value attached to each consumed column name in the header-permutation
theorem for C9. -/
def valOf (n : String) : String :=
  if n = "local_address" then "00000000:1F90" else if n = "st" then "0A" else "777"

/-- A one-row connection table whose header lists `names` in that order and
whose row carries each column's designated value in the same order. -/
def mkHeaderInput (names : List String) : String :=
  String.intercalate " " names ++ "\n" ++ String.intercalate " " (names.map valOf)

/-- All six orderings of the three consumed column names. -/
def perms3 : List (List String) :=
  [["local_address", "st", "inode"], ["local_address", "inode", "st"],
   ["st", "local_address", "inode"], ["st", "inode", "local_address"],
   ["inode", "local_address", "st"], ["inode", "st", "local_address"]]

/-- The single record parsed from `mkHeaderInput names`. -/
def headerRec (names : List String) : ConnRec :=
  (loadConnectionTable (mkHeaderInput names)).headD []

/-! Helper lemmas. -/

/-- Map congruence from pointwise equality on the members. -/
theorem map_congr_mem {α β : Type} {f g : α → β} (l : List α)
    (h : ∀ a ∈ l, f a = g a) : l.map f = l.map g := by
  induction l with
  | nil => rfl
  | cons a t ih =>
    simp only [List.map_cons]
    rw [h a (by simp), ih (fun b hb => h b (by simp [hb]))]

/-- Overwriting an existing key leaves the key list unchanged. -/
theorem mapSet_fst_overwrite {K V : Type} [DecidableEq K] (m : List (K × V)) (k : K) (v : V)
    (hmem : m.any (fun p => decide (p.1 = k)) = true) :
    (mapSet m k v).map (·.1) = m.map (·.1) := by
  simp only [mapSet, hmem, if_true, List.map_map]
  apply map_congr_mem
  intro p _
  by_cases hp : p.1 = k
  · simp [Function.comp, hp]
  · simp [Function.comp, hp]

/-- Inserting a fresh key appends it to the key list. -/
theorem mapSet_fst_fresh {K V : Type} [DecidableEq K] (m : List (K × V)) (k : K) (v : V)
    (hmem : m.any (fun p => decide (p.1 = k)) = false) :
    (mapSet m k v).map (·.1) = m.map (·.1) ++ [k] := by
  simp [mapSet, hmem]

/-- `mapSet` preserves distinctness of the keys. -/
theorem mapSet_fst_nodup {K V : Type} [DecidableEq K] (m : List (K × V)) (k : K) (v : V)
    (h : (m.map (·.1)).Nodup) : ((mapSet m k v).map (·.1)).Nodup := by
  cases hmem : m.any (fun p => decide (p.1 = k)) with
  | true => rw [mapSet_fst_overwrite m k v hmem]; exact h
  | false =>
    rw [mapSet_fst_fresh m k v hmem]
    have hk : k ∉ m.map (·.1) := by
      intro hkm
      obtain ⟨p, hp, hpk⟩ := List.mem_map.mp hkm
      have htrue : m.any (fun q => decide (q.1 = k)) = true :=
        List.any_eq_true.mpr ⟨p, hp, by simp [hpk]⟩
      rw [hmem] at htrue
      exact Bool.false_ne_true htrue
    apply List.Nodup.append h (List.nodup_singleton k)
    intro a ha hb
    rw [List.mem_singleton] at hb
    subst hb
    exact hk ha

/-- In the port-keyed `new Map` of `loadListeningPorts`, every stored value's
port equals its key; `mapSet` at key `c.port` preserves this. -/
theorem mapSet_port_inv (m : List (JSNum × Conn)) (c : Conn)
    (h : ∀ p ∈ m, p.2.port = p.1) : ∀ p ∈ mapSet m c.port c, p.2.port = p.1 := by
  intro p hp
  by_cases hmem : m.any (fun q => decide (q.1 = c.port)) = true
  · simp only [mapSet, hmem, if_true] at hp
    obtain ⟨q, hq, hqe⟩ := List.mem_map.mp hp
    by_cases hqk : q.1 = c.port
    · rw [if_pos hqk] at hqe
      rw [← hqe]
    · rw [if_neg hqk] at hqe
      rw [← hqe]
      exact h q hq
  · rw [Bool.not_eq_true] at hmem
    simp only [mapSet, hmem, Bool.false_eq_true, if_false, List.mem_append,
      List.mem_singleton] at hp
    rcases hp with hp | hp
    · exact h p hp
    · rw [hp]

/-- Folding `mapSet` over connection records keeps the keys distinct and the
port-equals-key invariant. -/
theorem portMap_fold_inv (recs : List Conn) :
    ∀ m : List (JSNum × Conn), (m.map (·.1)).Nodup → (∀ p ∈ m, p.2.port = p.1) →
      ((recs.foldl (fun m c => mapSet m c.port c) m).map (·.1)).Nodup ∧
        ∀ p ∈ recs.foldl (fun m c => mapSet m c.port c) m, p.2.port = p.1 := by
  induction recs with
  | nil => intro m h1 h2; exact ⟨h1, h2⟩
  | cons c t ih =>
    intro m h1 h2
    simp only [List.foldl_cons]
    exact ih (mapSet m c.port c) (mapSet_fst_nodup m c.port c h1) (mapSet_port_inv m c h2)

/-- The connections returned by `loadListeningPorts` have pairwise distinct
ports: they are the values of a map keyed by port. -/
theorem loadListeningPorts_ports_nodup (ss : List String) (conns : List Conn)
    (h : loadListeningPorts ss = some conns) : (conns.map (·.port)).Nodup := by
  simp only [loadListeningPorts] at h
  obtain ⟨recs, hrecs, hconns⟩ := Option.map_eq_some'.mp h
  subst hconns
  rw [List.map_map]
  have hinv := portMap_fold_inv recs [] (by simp) (by simp)
  have heq : (recs.foldl (fun m c => mapSet m c.port c) []).map
        ((fun c : Conn => c.port) ∘ (fun p : JSNum × Conn => p.2))
      = (recs.foldl (fun m c => mapSet m c.port c) []).map (·.1) :=
    map_congr_mem _ (fun p hp => hinv.2 p hp)
  rw [heq]
  exact hinv.1

/-- The ports of the candidates produced by `correlate` are a sublist of the
ports of the connections it consumes. -/
theorem correlate_ports_sublist (sm : List (Int × SockEntry)) (pm : List (Int × ProcessInfo)) :
    ∀ (conns : List Conn) (res : List Candidate), correlate sm pm conns = some res →
      List.Sublist (res.map (·.port)) (conns.map (·.port)) := by
  intro conns
  induction conns with
  | nil =>
    intro res h
    simp only [correlate, Option.some.injEq] at h
    subst h
    simp
  | cons c t ih =>
    intro res h
    simp only [correlate, Option.bind_eq_some] at h
    obtain ⟨s, h1, p, h2, h3⟩ := h
    by_cases hex : excludedCmd p.cmd = true
    · rw [if_pos hex] at h3
      simp only [List.map_cons]
      exact List.Sublist.cons c.port (ih res h3)
    · rw [if_neg hex] at h3
      obtain ⟨res', h', hres⟩ := Option.map_eq_some'.mp h3
      subst hres
      simp only [List.map_cons]
      exact List.Sublist.cons₂ c.port (ih res' h')

/-- Every candidate produced by `correlate` passed the self-exclusion test. -/
theorem correlate_all_kept (sm : List (Int × SockEntry)) (pm : List (Int × ProcessInfo)) :
    ∀ (conns : List Conn) (res : List Candidate), correlate sm pm conns = some res →
      res.all (fun e => !excludedCmd e.detail) = true := by
  intro conns
  induction conns with
  | nil =>
    intro res h
    simp only [correlate, Option.some.injEq] at h
    subst h
    rfl
  | cons c t ih =>
    intro res h
    simp only [correlate, Option.bind_eq_some] at h
    obtain ⟨s, h1, p, h2, h3⟩ := h
    by_cases hex : excludedCmd p.cmd = true
    · rw [if_pos hex] at h3
      exact ih res h3
    · rw [if_neg hex] at h3
      obtain ⟨res', h', hres⟩ := Option.map_eq_some'.mp h3
      subst hres
      rw [Bool.not_eq_true] at hex
      simp only [List.all_cons, hex, Bool.not_false, Bool.true_and]
      exact ih res' h'

/-- Structural invariant of a successful `$findCandidatePorts` run: the
result has pairwise distinct ports and contains no self-excluded command
line. -/
theorem findCandidatePorts_inv (flag : Bool) (tcp tcp6 ps : String)
    (procs : List ProcessInfo) (res : List Candidate)
    (h : findCandidatePorts flag tcp tcp6 ps procs = some res) :
    (res.map (·.port)).Nodup ∧ res.all (fun e => !excludedCmd e.detail) = true := by
  cases flag with
  | false =>
    unfold findCandidatePorts at h
    rw [if_neg (by simp)] at h
    rw [Option.some.injEq] at h
    subst h
    exact ⟨List.nodup_nil, rfl⟩
  | true =>
    unfold findCandidatePorts at h
    rw [if_pos rfl] at h
    simp only [Option.bind_eq_some] at h
    obtain ⟨conns, hL, sockets, hS, h3⟩ := h
    constructor
    · have hsub := correlate_ports_sublist _ _ _ _ h3
      have hfil := (List.filter_sublist
        (p := fun c => (lookupNum (sockets.foldl (fun m s => mapSet m s.socket s) []) c.socket).isSome)
        conns).map (fun c : Conn => c.port)
      exact List.Nodup.sublist (hsub.trans hfil) (loadListeningPorts_ports_nodup _ _ hL)
    · exact correlate_all_kept _ _ _ _ h3

/-! Claim theorems. -/

/-- C1: the claim says `$findCandidatePorts` never raises for any input
state, including malformed or empty inputs. The code violates this: with an
empty socket-enumeration stdout (the shell pipeline matched nothing),
`getSockets` runs `exec(line)!` on the single empty line, the regex does not
match, and the `match[1]` access throws a TypeError that propagates to the
caller. The embedding evaluates the facade at that input to `none` (a
rejected call), not to a list. -/
theorem c1_facade_throws_on_empty_socket_listing :
    findCandidatePorts true "" "" "" [] = none := by rfl

/-- C2: the claim says a listening record whose inode has no ownership
entry, or whose owning pid has no inventory entry, is silently dropped. The
code only drops the first case: the second conjunct here shows an
inode with no socket-owner entry being silently dropped (`some []`), but the
first conjunct shows that when the inode resolves to pid 99 and pid 99 is
absent from the inventory, `processMap[socketMap[socket].pid].cmd` throws,
so the whole call fails (`none`) instead of dropping the record. -/
theorem c2_unattributable_pid_throws :
    findCandidatePorts true c2_tcp "" "/proc/99/fd/5 -> socket:[77]" [] = none ∧
    findCandidatePorts true c2_tcp "" "/proc/99/fd/5 -> socket:[1000]"
      [⟨99, "/", "/usr/bin/x"⟩] = some [] := ⟨rfl, rfl⟩

/-- C3: every successful result of `$findCandidatePorts` has pairwise
distinct port numbers, and in end-to-end scenario D two listening records
that both decode to port 8080 via different inodes and processes yield
exactly one entry for port 8080 (the later record's owner provides the
detail, since the port-keyed Map keeps the last record per port). -/
theorem c3_no_duplicate_ports :
    (∀ tcp tcp6 ps procs, match findCandidatePorts true tcp tcp6 ps procs with
      | some res => (res.map (·.port)).Nodup
      | none => True) ∧
    findCandidatePorts true scenarioD_tcp "" scenarioD_sock scenarioD_procs =
      some [⟨some 8080, "/usr/bin/webB"⟩] := by
  constructor
  · intro tcp tcp6 ps procs
    cases h : findCandidatePorts true tcp tcp6 ps procs with
    | none => trivial
    | some res => exact (findCandidatePorts_inv true tcp tcp6 ps procs res h).1
  · rfl

/-- C4: no entry of a successful result has a detail matching the
self-exclusion patterns (the `.vscode-server-*/bin` regex or containment of
`out/vs/server/main.js`); both patterns are shown to fire on representative
agent command lines; and end-to-end scenario B (same as scenario A but the
owning process's command line is the agent's own server entry path) yields
an empty result. -/
theorem c4_self_exclusion :
    (∀ tcp tcp6 ps procs, match findCandidatePorts true tcp tcp6 ps procs with
      | some res => res.all (fun e => !excludedCmd e.detail) = true
      | none => True) ∧
    excludedCmd "/root/.vscode-server-insiders/bin/abc/server.sh" = true ∧
    excludedCmd "/usr/bin/node /home/u/agent/out/vs/server/main.js" = true ∧
    findCandidatePorts true scenarioA_tcp "" scenarioA_sock scenarioB_procs = some [] := by
  refine ⟨?_, by decide, by decide, by rfl⟩
  intro tcp tcp6 ps procs
  cases h : findCandidatePorts true tcp tcp6 ps procs with
  | none => trivial
  | some res => exact (findCandidatePorts_inv true tcp tcp6 ps procs res h).2

/-- C5: with the platform flag false (`!isLinux`), `$findCandidatePorts`
returns the empty list for every input state, short-circuiting before any
parse is attempted. -/
theorem c5_platform_gate :
    ∀ (tcp tcp6 procSockets : String) (processes : List ProcessInfo),
      findCandidatePorts false tcp tcp6 procSockets processes = some [] := by
  intro tcp tcp6 ps procs
  rfl

/-- C6: the claim says a socket-enumeration line not matching
`/proc/<pid>/fd/<fd> -> socket:[<inode>]` is dropped silently while matching
lines still yield their records. The code instead throws on the bad line
(`exec(line)!` is null, `match[1]` raises), losing the whole batch: on a
stdout with one matching and one non-matching line, `getSockets` fails
(`none`) rather than returning the record parsed from the matching line. -/
theorem c6_socket_resolver_throws_on_bad_line :
    getSockets "/proc/42/fd/3 -> socket:[12345]\ntotal 0" = none := by rfl

/-- C7 counterexample: the claim says a row whose field count differs from
the header's column count is excluded from the parser output. On a header
with three columns and a data row with only two fields, the parser still
emits a record for that row, so the output is not empty. -/
theorem c7_counterexample :
    loadConnectionTable "local_address st inode\nX 0A" ≠ [] := by decide

/-- C7 amended: the parser emits exactly one record per non-header line for
every input, so a row with a differing field count is carried through as a
best-effort record (missing columns absent) rather than excluded, and
sibling rows are unaffected: in the concrete table the malformed middle row
yields a partial record while both well-formed neighbours parse with all
three consumed columns present. -/
theorem c7_amended_rows_carried :
    (∀ s : String, (loadConnectionTable s).length =
      (splitChar '\n' (jsTrim s.toList)).length - 1) ∧
    loadConnectionTable "local_address st inode\nA:1 0A 5\nBAD\nB:2 06 7" =
      [[("local_address".toList, "A:1".toList), ("st".toList, "0A".toList),
        ("inode".toList, "5".toList)],
       [("local_address".toList, "BAD".toList)],
       [("local_address".toList, "B:2".toList), ("st".toList, "06".toList),
        ("inode".toList, "7".toList)]] := by
  constructor
  · intro s
    simp only [loadConnectionTable]
    cases h : splitChar '\n' (jsTrim s.toList) with
    | nil => rfl
    | cons header rest => simp
  · rfl

/-- C8: end-to-end scenario A. A connection-table row with state `0A`,
local address `0100007F:1F90` and inode `12345`, a socket-owner line mapping
inode `12345` to pid `42`, and an inventory entry for pid `42` with command
line `/usr/bin/myserver --port 8080` produce exactly one candidate with the
hex port `1F90` decoded to decimal 8080 and the command line as detail. -/
theorem c8_end_to_end_scenario_a :
    findCandidatePorts true scenarioA_tcp "" scenarioA_sock scenarioA_procs =
      some [⟨some 8080, "/usr/bin/myserver --port 8080"⟩] := by rfl

/-- C9: the connection-table parser is header-driven. For every ordering of
the three consumed column names, each value is retrieved under the column
name above it, not by a fixed position; and with the two noise columns
`rx_queue` and `tm->when` present in the header, their names are removed
before alignment, so a row whose field count matches the reduced list still
aligns correctly. -/
theorem c9_header_driven :
    (∀ names, names ∈ perms3 →
      (loadConnectionTable (mkHeaderInput names)).length = 1 ∧
      jsGet (headerRec names) ("local_address".toList) = some ("00000000:1F90".toList) ∧
      jsGet (headerRec names) ("st".toList) = some ("0A".toList) ∧
      jsGet (headerRec names) ("inode".toList) = some ("777".toList)) ∧
    loadConnectionTable "st rx_queue inode tm->when local_address\n0A 777 00000000:1F90" =
      [[("st".toList, "0A".toList), ("inode".toList, "777".toList),
        ("local_address".toList, "00000000:1F90".toList)]] := by
  refine ⟨?_, by rfl⟩
  decide

/-- Witness for C9 at the reversed header ordering. -/
theorem c9_header_driven_witness :
    (loadConnectionTable (mkHeaderInput ["inode", "st", "local_address"])).length = 1 ∧
    jsGet (headerRec ["inode", "st", "local_address"]) ("local_address".toList) =
      some ("00000000:1F90".toList) ∧
    jsGet (headerRec ["inode", "st", "local_address"]) ("st".toList) =
      some ("0A".toList) ∧
    jsGet (headerRec ["inode", "st", "local_address"]) ("inode".toList) =
      some ("777".toList) :=
  c9_header_driven.1 ["inode", "st", "local_address"] (by decide)

/-- C10: per-port deduplication happens in `loadListeningPorts`, before
ownership resolution and self-exclusion, and the last record in the
concatenated IPv4-then-IPv6 order wins: with the IPv4 table contributing
inode 111 and the IPv6 table inode 222, both on port 8080, only the inode
222 record survives; when only the shadowed inode 111 is attributable (and
its command non-excluded), the surviving record is filtered out as
unattributable and port 8080 is absent from the final result. -/
theorem c10_dedup_last_wins_shadowing :
    loadListeningPorts [c10_tcp4, c10_tcp6] =
      some [⟨some 222, "00000000000000000000000001000000".toList, some 8080⟩] ∧
    findCandidatePorts true c10_tcp4 c10_tcp6 "/proc/6/fd/9 -> socket:[111]"
      [⟨6, "/", "/usr/bin/coolserver"⟩] = some [] := ⟨rfl, rfl⟩

end ExtHostTunnel
